import Mathlib

/-!
Verification of the mioty telemetry decoding engine (Sentinum/Febris/Juno/
Apollon/Hyperion device families).  The JavaScript sources are shallowly
embedded: payloads are lists of naturals, JavaScript numbers are rationals
extended with NaN and undefined, and the 32-bit coercions performed by the
JavaScript bitwise operators are modelled with explicit reductions modulo
2^32.  All definitions are executable.
-/

/-! ## JavaScript 32-bit integer semantics

JavaScript bitwise operators coerce their operands with ToInt32/ToUint32
(truncation, then reduction modulo 2^32) and work on the resulting 32-bit
patterns; shift counts are taken modulo 32. -/

/-- ECMAScript ToUint32 on an integer: reduce modulo 2^32 into 0..2^32-1. -/
def toUint32 (n : Int) : Nat := (n % (2 ^ 32)).toNat

/-- Reinterpret an unsigned 32-bit pattern as a signed 32-bit integer. -/
def int32OfUint32 (u : Nat) : Int :=
  if u < 2 ^ 31 then (u : Int) else (u : Int) - 2 ^ 32

/-- ECMAScript ToInt32 on an integer. -/
def toInt32 (n : Int) : Int := int32OfUint32 (toUint32 n)

/-- JavaScript `a << b`: shift the 32-bit pattern of `a` left by `b mod 32`
and reinterpret as signed 32-bit. -/
def jsShl (a b : Int) : Int :=
  int32OfUint32 (toUint32 a * 2 ^ (toUint32 b % 32) % 2 ^ 32)

/-- JavaScript `a >> b`: arithmetic right shift of the signed 32-bit value
of `a` by `b mod 32` (floor division by the corresponding power of two). -/
def jsShr (a b : Int) : Int :=
  (toInt32 a).ediv (2 ^ (toUint32 b % 32))

/-- JavaScript `a & b` on the 32-bit patterns, result signed 32-bit. -/
def jsAnd (a b : Int) : Int :=
  int32OfUint32 (toUint32 a &&& toUint32 b)

/-- JavaScript `a | b` on the 32-bit patterns, result signed 32-bit. -/
def jsOr (a b : Int) : Int :=
  int32OfUint32 (toUint32 a ||| toUint32 b)

/-! ## Field codec: twos-complement sign conversion

`uncomplement` is the sign-conversion codec shared by the Juno and Apollon
decoders (src/decoders/juno_th.js, src/decoders/apollon-qtr.js):

    var isnegative = val & (1 << (bitwidth - 1));
    var boundary   = (1 << bitwidth);
    var minval     = -boundary;
    var mask       = boundary - 1;
    return isnegative ? minval + (val & mask) : val;
-/

/-- The `uncomplement` codec, with JavaScript 32-bit bitwise semantics. -/
def uncomplement (val bitwidth : Int) : Int :=
  let isnegative := jsAnd val (jsShl 1 (bitwidth - 1))
  let boundary := jsShl 1 bitwidth
  let minval := -boundary
  let mask := boundary - 1
  if isnegative ≠ 0 then minval + jsAnd val mask else val

lemma toUint32_natCast (u : Nat) (h : u < 4294967296) : toUint32 (u : Int) = u := by
  unfold toUint32
  rw [show ((2:Int)^32) = 4294967296 from by norm_num]
  omega

lemma int32OfUint32_small (w : Nat) (h : w < 2147483648) :
    int32OfUint32 w = (w : Int) := by
  unfold int32OfUint32
  rw [if_pos (by norm_num; omega)]

lemma jsAnd_natCast (u m : Nat) (hu : u < 4294967296) (hm : m < 2147483648) :
    jsAnd (u : Int) (m : Int) = ((u &&& m : Nat) : Int) := by
  unfold jsAnd
  rw [toUint32_natCast u hu, toUint32_natCast m (by omega)]
  exact int32OfUint32_small _ (lt_of_le_of_lt Nat.and_le_right hm)

/-- At width 8 `uncomplement` is exactly the sign reinterpretation of an
unsigned byte. -/
lemma uncomplement_char8 (u : Nat) (hu : u < 256) :
    uncomplement (u : Int) 8 = if 128 ≤ u then (u : Int) - 256 else (u : Int) := by
  have hA128 : jsAnd (u : Int) 128 = ((u &&& 128 : Nat) : Int) := by
    have h := jsAnd_natCast u 128 (by omega) (by omega)
    push_cast at h ⊢
    exact h
  have hA255 : jsAnd (u : Int) 255 = ((u &&& 255 : Nat) : Int) := by
    have h := jsAnd_natCast u 255 (by omega) (by omega)
    push_cast at h ⊢
    exact h
  have hm255 : u &&& 255 = u := by
    have h := Nat.and_pow_two_sub_one_eq_mod u 8
    norm_num at h
    omega
  have htb : u.testBit 7 = decide (u / 128 % 2 = 1) := by
    rw [Nat.testBit_to_div_mod]
  have h128 : u &&& 128 = (u.testBit 7).toNat * 128 := by
    have h := Nat.and_two_pow u 7
    norm_num at h
    exact h
  simp only [uncomplement]
  rw [show (8:Int) - 1 = 7 from by norm_num]
  rw [show jsShl 1 7 = 128 from by decide, show jsShl 1 8 = 256 from by decide]
  rw [hA128, h128, htb]
  by_cases hc : u / 128 % 2 = 1
  · rw [if_pos (by simp [hc])]
    rw [show (256:Int) - 1 = 255 from by norm_num, hA255, hm255]
    rw [if_pos (by omega)]
    ring
  · rw [if_neg (by simp [hc])]
    rw [if_neg (by omega)]

/-- At width 16 `uncomplement` is exactly the sign reinterpretation of an
unsigned 16-bit value. -/
lemma uncomplement_char16 (u : Nat) (hu : u < 65536) :
    uncomplement (u : Int) 16 = if 32768 ≤ u then (u : Int) - 65536 else (u : Int) := by
  have hA15 : jsAnd (u : Int) 32768 = ((u &&& 32768 : Nat) : Int) := by
    have h := jsAnd_natCast u 32768 (by omega) (by omega)
    push_cast at h ⊢
    exact h
  have hAm : jsAnd (u : Int) 65535 = ((u &&& 65535 : Nat) : Int) := by
    have h := jsAnd_natCast u 65535 (by omega) (by omega)
    push_cast at h ⊢
    exact h
  have hmm : u &&& 65535 = u := by
    have h := Nat.and_pow_two_sub_one_eq_mod u 16
    norm_num at h
    omega
  have htb : u.testBit 15 = decide (u / 32768 % 2 = 1) := by
    rw [Nat.testBit_to_div_mod]
  have h15 : u &&& 32768 = (u.testBit 15).toNat * 32768 := by
    have h := Nat.and_two_pow u 15
    norm_num at h
    exact h
  simp only [uncomplement]
  rw [show (16:Int) - 1 = 15 from by norm_num]
  rw [show jsShl 1 15 = 32768 from by decide, show jsShl 1 16 = 65536 from by decide]
  rw [hA15, h15, htb]
  by_cases hc : u / 32768 % 2 = 1
  · rw [if_pos (by simp [hc])]
    rw [show (65536:Int) - 1 = 65535 from by norm_num, hAm, hmm]
    rw [if_pos (by omega)]
    ring
  · rw [if_neg (by simp [hc])]
    rw [if_neg (by omega)]

/-- At width 32 the JavaScript shift overflow (`1 << 32 = 1`) collapses the
codec: every value with bit 31 set is mapped to `-1`. -/
lemma uncomplement_32_high (u : Nat) (hu : u < 4294967296)
    (hhi : 2147483648 ≤ u) : uncomplement (u : Int) 32 = -1 := by
  have htb : u.testBit 31 = decide (u / 2147483648 % 2 = 1) := by
    rw [Nat.testBit_to_div_mod]
  have h31 : u &&& 2147483648 = (u.testBit 31).toNat * 2147483648 := by
    have h := Nat.and_two_pow u 31
    norm_num at h
    exact h
  have hc : u / 2147483648 % 2 = 1 := by omega
  simp only [uncomplement]
  rw [show (32:Int) - 1 = 31 from by norm_num]
  rw [show jsShl 1 31 = -2147483648 from by decide, show jsShl 1 32 = 1 from by decide]
  have hAhigh : jsAnd (u : Int) (-2147483648) = -2147483648 := by
    unfold jsAnd
    rw [toUint32_natCast u hu,
      show toUint32 (-2147483648) = 2147483648 from by decide]
    rw [h31, htb, hc]
    norm_num [int32OfUint32]
  rw [hAhigh]
  rw [if_pos (by norm_num)]
  have hA0 : jsAnd (u : Int) (1 - 1) = 0 := by
    unfold jsAnd
    rw [show (1:Int) - 1 = 0 from by norm_num]
    rw [toUint32_natCast u hu, show toUint32 0 = 0 from by decide]
    simp [int32OfUint32]
  rw [hA0]
  norm_num

/-- Encode-then-decode round-trip at width 8. -/
lemma uncomplement_roundtrip8 (v : Int) (h1 : -128 ≤ v) (h2 : v < 128) :
    uncomplement (v % 256) 8 = v := by
  by_cases h0 : 0 ≤ v
  · have h := uncomplement_char8 v.toNat (by omega)
    rw [if_neg (by omega)] at h
    have hv : ((v.toNat : Nat) : Int) = v := by omega
    rw [hv] at h
    rw [show v % 256 = v from by omega]
    exact h
  · have h := uncomplement_char8 (v + 256).toNat (by omega)
    rw [if_pos (by omega)] at h
    have hv : (((v + 256).toNat : Nat) : Int) = v + 256 := by omega
    rw [hv] at h
    rw [show v % 256 = v + 256 from by omega, h]
    ring

/-- Encode-then-decode round-trip at width 16. -/
lemma uncomplement_roundtrip16 (v : Int) (h1 : -32768 ≤ v) (h2 : v < 32768) :
    uncomplement (v % 65536) 16 = v := by
  by_cases h0 : 0 ≤ v
  · have h := uncomplement_char16 v.toNat (by omega)
    rw [if_neg (by omega)] at h
    have hv : ((v.toNat : Nat) : Int) = v := by omega
    rw [hv] at h
    rw [show v % 65536 = v from by omega]
    exact h
  · have h := uncomplement_char16 (v + 65536).toNat (by omega)
    rw [if_pos (by omega)] at h
    have hv : (((v + 65536).toNat : Nat) : Int) = v + 65536 := by omega
    rw [hv] at h
    rw [show v % 65536 = v + 65536 from by omega, h]
    ring

/-- Claim C4 counterexample: at width 32 the codec does not compute
`u - 2^32` for a value with the sign bit set.  `uncomplement (2^31) 32`
evaluates to `-1`, not `2^31 - 2^32 = -(2^31)`, so neither the unsigned
characterization nor the round-trip holds at width 32. -/
theorem uncomplement_width32_cex :
    uncomplement ((2 : Int) ^ 31) 32 = -1 ∧
      ((2 : Int) ^ 31) - 2 ^ 32 = -(2 ^ 31) ∧ ((-1 : Int)) ≠ -(2 ^ 31) := by
  refine ⟨?_, by norm_num, by norm_num⟩
  have h := uncomplement_32_high 2147483648 (by norm_num) (by norm_num)
  rw [show (((2147483648 : Nat)) : Int) = (2 : Int) ^ 31 from by norm_num] at h
  exact h

/-- Claim C4 (amended): for widths 8 and 16 the sign-conversion codec is the
exact twos-complement reinterpretation (`u - 2^N` when bit `N-1` of `u` is
set, `u` unchanged otherwise) and the encode/decode round-trip is the
identity on all representable signed values; at width 32 the JavaScript
shift-count overflow (1 shifted left by 32 equals 1) makes the codec return
`-1` for every value whose bit 31 is set, so the width-32 characterization
and round-trip both fail. -/
theorem uncomplement_correct_8_16_broken_32 :
    (∀ u : Nat, u < 2 ^ 8 →
      uncomplement (u : Int) 8 =
        if 2 ^ 7 ≤ u then (u : Int) - 2 ^ 8 else (u : Int)) ∧
    (∀ v : Int, -(2 ^ 7) ≤ v → v < 2 ^ 7 →
      uncomplement (v % 2 ^ 8) 8 = v) ∧
    (∀ u : Nat, u < 2 ^ 16 →
      uncomplement (u : Int) 16 =
        if 2 ^ 15 ≤ u then (u : Int) - 2 ^ 16 else (u : Int)) ∧
    (∀ v : Int, -(2 ^ 15) ≤ v → v < 2 ^ 15 →
      uncomplement (v % 2 ^ 16) 16 = v) ∧
    (∀ u : Nat, u < 2 ^ 32 → 2 ^ 31 ≤ u → uncomplement (u : Int) 32 = -1) := by
  refine ⟨?_, ?_, ?_, ?_, ?_⟩
  · intro u hu
    have h := uncomplement_char8 u (by norm_num at hu; omega)
    norm_num
    norm_num at h
    exact h
  · intro v h1 h2
    have h := uncomplement_roundtrip8 v (by norm_num at h1 ⊢; omega) (by norm_num at h2 ⊢; omega)
    norm_num
    norm_num at h
    exact h
  · intro u hu
    have h := uncomplement_char16 u (by norm_num at hu; omega)
    norm_num
    norm_num at h
    exact h
  · intro v h1 h2
    have h := uncomplement_roundtrip16 v (by norm_num at h1 ⊢; omega) (by norm_num at h2 ⊢; omega)
    norm_num
    norm_num at h
    exact h
  · intro u hu hhi
    exact uncomplement_32_high u (by norm_num at hu; omega) (by norm_num at hhi; omega)

/-- Witness for the amended C4 theorem at concrete inputs. -/
theorem uncomplement_correct_8_16_broken_32_witness :
    uncomplement ((-100 : Int) % 2 ^ 8) 8 = -100 ∧
      uncomplement ((-1234 : Int) % 2 ^ 16) 16 = -1234 ∧
      uncomplement ((2147483653 : Nat) : Int) 32 = -1 := by
  obtain ⟨-, hr8, -, hr16, h32⟩ := uncomplement_correct_8_16_broken_32
  exact ⟨hr8 (-100) (by norm_num) (by norm_num),
    hr16 (-1234) (by norm_num) (by norm_num),
    h32 2147483653 (by norm_num) (by norm_num)⟩

/-! ## JavaScript values

Decoded records map field names to JavaScript values.  Numbers are modelled
as rationals (IEEE-754 rounding is out of scope throughout, as the spec
accepts for magnitudes above 2^53), with NaN kept as a distinct value;
`undef` models `undefined`, the result of an out-of-bounds array read. -/

inductive JVal where
  | num (q : ℚ)
  | nan
  | undef
  | null
  | bool (b : Bool)
  | str (s : String)
  | obj (fields : List (String × JVal))

/-- ToNumber on the values that occur in numeric positions here.  Strings
and objects coerce to NaN in the numeric contexts of the decoders (where the object
primitive form "[object Object]" parses as NaN; no numeric-string
coercions occur in the embedded code). -/
def jvNumOf : JVal → Option ℚ
  | .num q => some q
  | .bool b => some (if b then 1 else 0)
  | .null => some 0
  | _ => none

/-- ToInt32 on a value, used by the bitwise operators: NaN and undefined
coerce to 0. -/
def jvInt32 (v : JVal) : Int :=
  match jvNumOf v with
  | some q => toInt32 (if 0 ≤ q then (⌊q⌋ : Int) else -⌊-q⌋)
  | none => 0

/-- JavaScript `a << b` on values. -/
def jvShl (a b : JVal) : JVal := .num ((jsShl (jvInt32 a) (jvInt32 b) : Int) : ℚ)

/-- JavaScript `a >> b` on values. -/
def jvShr (a b : JVal) : JVal := .num ((jsShr (jvInt32 a) (jvInt32 b) : Int) : ℚ)

/-- JavaScript `a & b` on values. -/
def jvAnd (a b : JVal) : JVal := .num ((jsAnd (jvInt32 a) (jvInt32 b) : Int) : ℚ)

/-- JavaScript `a | b` on values. -/
def jvOr (a b : JVal) : JVal := .num ((jsOr (jvInt32 a) (jvInt32 b) : Int) : ℚ)

/-- JavaScript `a + b` in the numeric contexts used by the decoders
(never string concatenation there): NaN-propagating rational addition. -/
def jvAdd (a b : JVal) : JVal :=
  match jvNumOf a, jvNumOf b with
  | some x, some y => .num (x + y)
  | _, _ => .nan

/-- JavaScript `a - b`: NaN-propagating rational subtraction. -/
def jvSub (a b : JVal) : JVal :=
  match jvNumOf a, jvNumOf b with
  | some x, some y => .num (x - y)
  | _, _ => .nan

/-- JavaScript `a * c` with a constant: NaN-propagating. -/
def jvMulC (a : JVal) (c : ℚ) : JVal :=
  match jvNumOf a with
  | some x => .num (x * c)
  | none => .nan

/-- JavaScript `a / c` with a nonzero constant divisor (the decoders only
divide by 10, 100, 256 and 1000): NaN-propagating. -/
def jvDivC (a : JVal) (c : ℚ) : JVal :=
  match jvNumOf a with
  | some x => .num (x / c)
  | none => .nan

/-- JavaScript truthiness of a value. -/
def jvTruthy : JVal → Bool
  | .num q => decide (q ≠ 0)
  | .bool b => b
  | .str s => decide (s ≠ "")
  | .obj _ => true
  | .nan => false
  | JVal.undef => false
  | .null => false

/-- JavaScript `a >= c` against a numeric constant (false on NaN). -/
def jvGe (a : JVal) (c : ℚ) : Bool :=
  match jvNumOf a with
  | some x => decide (c ≤ x)
  | none => false

/-- JavaScript `a > c` against a numeric constant (false on NaN). -/
def jvGt (a : JVal) (c : ℚ) : Bool :=
  match jvNumOf a with
  | some x => decide (c < x)
  | none => false

/-- JavaScript array indexing `bytes[i]` on a byte payload: the byte as a
number when `i` is a non-negative integer inside the bounds, `undefined`
otherwise. -/
def jvIdx (bytes : List Nat) : JVal → JVal
  | .num q =>
    if q.den = 1 ∧ 0 ≤ q.num ∧ q.num < (bytes.length : Int) then
      .num (bytes.getD q.num.toNat 0)
    else JVal.undef
  | _ => JVal.undef

/-- String conversion for non-number values (`String(value)` as applied by
the measurement normalizer; the number branch never reaches it). -/
def jvStringOf : JVal → String
  | .str s => s
  | .bool b => if b then "true" else "false"
  | .obj _ => "[object Object]"
  | .null => "null"
  | JVal.undef => "undefined"
  | .nan => "NaN"
  | .num _ => ""

/-! ## String helpers used by the measurement normalizer

These model the JavaScript string methods applied to record keys:
`toLowerCase`, `includes`, `replace` of underscores with spaces, and the
word-start capitalization regex replacement. -/

/-- Model of `s.includes(pat)` over character lists. -/
def listHasSub (pat : List Char) : List Char → Bool
  | [] => pat.isEmpty
  | c :: t => pat.isPrefixOf (c :: t) || listHasSub pat t

/-- Model of `s.includes(pat)` on strings. -/
def strHasSub (s pat : String) : Bool := listHasSub pat.data s.data

/-- Model of `s.toLowerCase()` for the ASCII keys used by the decoders. -/
def strToLower (s : String) : String := .mk (s.data.map Char.toLower)

/-- A JavaScript word character (the regex class of letters, digits and
underscore). -/
def isWordChar (c : Char) : Bool := c.isAlphanum || c = '_'

/-- The capitalization pass of the fallback description: the
regex replaces every word character at a word boundary by its upper-case
form.  The flag records whether the previous character was a word
character. -/
def capWordStarts : List Char → Bool → List Char
  | [], _ => []
  | c :: t, prev =>
    (if !prev && isWordChar c then c.toUpper else c) :: capWordStarts t (isWordChar c)

/-- The fallback description of the normalizer: underscores become spaces, then
word starts are capitalized. -/
def descriptionOfKey (key : String) : String :=
  .mk (capWordStarts (key.data.map fun c => if c = '_' then ' ' else c) false)

/-! ## Measurement normalizer

`convertDecodedToMeasurements` (decoder engine, `parseSensorData`
companion): iterates the entries of the decoded record, skips routing
metadata and undefined values, infers unit and description from the key
name, and stringifies every non-number value. -/

structure Measurement where
  type : String
  value : JVal
  unit : String
  description : String

/-- The value coercion of the normalizer: a number passes through, any other value is stringified. -/
def jvMeasValue : JVal → JVal
  | .num q => .num q
  | .nan => .nan
  | v => .str (jvStringOf v)

/-- One entry of the normalizer loop. -/
def convertEntry (key : String) (value : JVal) : Option Measurement :=
  if key = "networkBaseType" ∨ key = "networkSubType" then none
  else
    match value with
    | JVal.undef => none
    | v =>
      let d0 := descriptionOfKey key
      let ud : String × String :=
        if strHasSub (strToLower key) "temperature" then ("°C", d0)
        else if key = "humidity" then ("%RH", "Relative Humidity")
        else if strHasSub key "battery" && strHasSub key "voltage" then
          ("V", "Battery Voltage")
        else if strHasSub key "dew_point" then ("°C", "Dew Point")
        else ("", d0)
      some ⟨key, jvMeasValue v, ud.1, ud.2⟩

/-- The measurement normalizer over a decoded record (entries in insertion
order, as Object.entries yields them). -/
def convertDecodedToMeasurements (decoded : List (String × JVal)) :
    List Measurement :=
  decoded.filterMap fun e => convertEntry e.1 e.2

/-- Claim C7 counterexample: a record entry carrying an explicit
value/unit object is not passed through verbatim: the emitted
value is the string "[object Object]", not the supplied number 3.1, and
its unit comes from the key-name lookup. -/
theorem convertDecoded_obj_cex :
    convertDecodedToMeasurements
        [("battery_voltage", .obj [("value", .num (31/10)), ("unit", .str "V")])] =
      [⟨"battery_voltage", .str "[object Object]", "V", "Battery Voltage"⟩] ∧
    JVal.str "[object Object]" ≠ .num (31/10) := by
  exact ⟨rfl, fun h => JVal.noConfusion h⟩

/-- Normalizer output on an object-valued entry under any non-excluded
key: the value is stringified, unit and description come from the key. -/
lemma convertEntry_obj (key : String) (fields : List (String × JVal))
    (h1 : key ≠ "networkBaseType") (h2 : key ≠ "networkSubType") :
    convertEntry key (.obj fields) =
      some ⟨key, .str "[object Object]",
        (if strHasSub (strToLower key) "temperature" then ("°C", descriptionOfKey key)
         else if key = "humidity" then ("%RH", "Relative Humidity")
         else if strHasSub key "battery" && strHasSub key "voltage" then
           ("V", "Battery Voltage")
         else if strHasSub key "dew_point" then ("°C", "Dew Point")
         else ("", descriptionOfKey key)).1,
        (if strHasSub (strToLower key) "temperature" then ("°C", descriptionOfKey key)
         else if key = "humidity" then ("%RH", "Relative Humidity")
         else if strHasSub key "battery" && strHasSub key "voltage" then
           ("V", "Battery Voltage")
         else if strHasSub key "dew_point" then ("°C", "Dew Point")
         else ("", descriptionOfKey key)).2⟩ := by
  unfold convertEntry
  rw [if_neg (by tauto)]
  rfl

/-- Normalizer output on a plain numeric entry under any non-excluded
key: the number passes through, unit and description come from the key. -/
lemma convertEntry_num (key : String) (q : ℚ)
    (h1 : key ≠ "networkBaseType") (h2 : key ≠ "networkSubType") :
    convertEntry key (.num q) =
      some ⟨key, .num q,
        (if strHasSub (strToLower key) "temperature" then ("°C", descriptionOfKey key)
         else if key = "humidity" then ("%RH", "Relative Humidity")
         else if strHasSub key "battery" && strHasSub key "voltage" then
           ("V", "Battery Voltage")
         else if strHasSub key "dew_point" then ("°C", "Dew Point")
         else ("", descriptionOfKey key)).1,
        (if strHasSub (strToLower key) "temperature" then ("°C", descriptionOfKey key)
         else if key = "humidity" then ("%RH", "Relative Humidity")
         else if strHasSub key "battery" && strHasSub key "voltage" then
           ("V", "Battery Voltage")
         else if strHasSub key "dew_point" then ("°C", "Dew Point")
         else ("", descriptionOfKey key)).2⟩ := by
  unfold convertEntry
  rw [if_neg (by tauto)]
  rfl

/-- Claim C7 (amended): the normalizer ignores a supplied value/unit(/
description) object entirely, for every record entry.  Whatever object the
decoding unit attached under whatever key: (1) the emitted measurements do
not depend on the contents of the object at all; (2) for every
non-excluded key the emitted value is the string "[object Object]", never
the supplied number; (3) the emitted unit and description are inferred
from the key name alone — they equal the ones emitted for a plain numeric
value under the same key; and concretely (4) a battery_voltage or pressure
entry carrying any value/unit/description strings yields the key-derived
measurement, with the supplied values discarded. -/
theorem convertDecoded_ignores_value_unit_objects :
    (∀ (key : String) (f1 f2 : List (String × JVal)),
      convertDecodedToMeasurements [(key, .obj f1)] =
        convertDecodedToMeasurements [(key, .obj f2)]) ∧
    (∀ (key : String) (fields : List (String × JVal)),
      key ≠ "networkBaseType" → key ≠ "networkSubType" →
      (convertDecodedToMeasurements [(key, .obj fields)]).map
          (fun m => m.value) = [.str "[object Object]"]) ∧
    (∀ (key : String) (fields : List (String × JVal)) (q : ℚ),
      key ≠ "networkBaseType" → key ≠ "networkSubType" →
      (convertDecodedToMeasurements [(key, .obj fields)]).map
          (fun m => (m.unit, m.description)) =
        (convertDecodedToMeasurements [(key, .num q)]).map
          (fun m => (m.unit, m.description))) ∧
    (∀ (q : ℚ) (u d : String),
      convertDecodedToMeasurements
          [("battery_voltage",
            .obj [("value", .num q), ("unit", .str u), ("description", .str d)])] =
        [⟨"battery_voltage", .str "[object Object]", "V", "Battery Voltage"⟩] ∧
      convertDecodedToMeasurements
          [("pressure", .obj [("value", .num q), ("unit", .str u)])] =
        [⟨"pressure", .str "[object Object]", "", "Pressure"⟩]) := by
  refine ⟨?_, ?_, ?_, ?_⟩
  · intro key f1 f2
    rfl
  · intro key fields h1 h2
    simp only [convertDecodedToMeasurements, List.filterMap_cons,
      convertEntry_obj key fields h1 h2, List.filterMap_nil, List.map_cons,
      List.map_nil]
  · intro key fields q h1 h2
    simp only [convertDecodedToMeasurements, List.filterMap_cons,
      convertEntry_obj key fields h1 h2, convertEntry_num key q h1 h2,
      List.filterMap_nil, List.map_cons, List.map_nil]
  · intro q u d
    exact ⟨rfl, rfl⟩

/-- Witness for the amended C7 theorem at concrete keys and objects. -/
theorem convertDecoded_ignores_value_unit_objects_witness :
    (convertDecodedToMeasurements
        [("internal_temperature", .obj [("value", .num 21), ("unit", .str "K")])]).map
      (fun m => m.value) = [.str "[object Object]"] ∧
    (convertDecodedToMeasurements
        [("internal_temperature", .obj [("value", .num 21), ("unit", .str "K")])]).map
      (fun m => (m.unit, m.description)) =
    (convertDecodedToMeasurements [("internal_temperature", .num 21)]).map
      (fun m => (m.unit, m.description)) := by
  obtain ⟨-, hval, hud, -⟩ := convertDecoded_ignores_value_unit_objects
  exact ⟨hval "internal_temperature" [("value", .num 21), ("unit", .str "K")]
      (by decide) (by decide),
    hud "internal_temperature" [("value", .num 21), ("unit", .str "K")] 21
      (by decide) (by decide)⟩

/-! ## Hexadecimal rendering and parsing

Models of `b.toString(16)`, `padStart(2, '0')`, `join(' ')` and of the
utility pair `bytesToHexString` / `hexStringToBytes` (decoder utils). -/

/-- The lower-case hexadecimal digit characters produced by
`Number.prototype.toString(16)`. -/
def hexDigitChar (d : Nat) : Char :=
  if d < 10 then Char.ofNat (48 + d) else Char.ofNat (87 + d)

/-- Digit expansion of a natural in base 16, most significant first; the
fuel argument (any bound on the digit count, we pass `n + 1`) keeps the
recursion structural. -/
def toHexCore : Nat → Nat → List Char
  | 0, _ => []
  | fuel + 1, n =>
    if n < 16 then [hexDigitChar n]
    else toHexCore fuel (n / 16) ++ [hexDigitChar (n % 16)]

/-- Model of `n.toString(16)` for a natural number, as a character list. -/
def jsToString16 (n : Nat) : List Char := toHexCore (n + 1) n

/-- Model of `padStart(2, ..)` with the zero digit, on a character list. -/
def pad2 (l : List Char) : List Char :=
  if l.length < 2 then List.replicate (2 - l.length) '0' ++ l else l

/-- Model of `join` with a space separator, on a list of character lists. -/
def joinSpace : List (List Char) → List Char
  | [] => []
  | [x] => x
  | x :: y :: t => x ++ ' ' :: joinSpace (y :: t)

/-- The raw-passthrough hex rendering used by `parseUnknownSensor`:
lower-case two-digit hex per byte, space separated. -/
def rawHexRender (data : List Nat) : String :=
  .mk (joinSpace (data.map fun b => pad2 (jsToString16 b)))

/-- Model of `bytesToHexString` (decoder utils): upper-case two-digit hex per byte,
space separated. -/
def bytesToHexString (bytes : List Nat) : String :=
  .mk (joinSpace (bytes.map fun b => (pad2 (jsToString16 b)).map Char.toUpper))

/-- A character kept by the cleaning regex of `hexStringToBytes`
(hexadecimal digits of either case). -/
def isHexDigitChar (c : Char) : Bool :=
  ('0' ≤ c && c ≤ '9') || ('a' ≤ c && c ≤ 'f') || ('A' ≤ c && c ≤ 'F')

/-- Numeric value of a hexadecimal digit character. -/
def hexCharVal (c : Char) : Nat :=
  if '0' ≤ c ∧ c ≤ '9' then c.toNat - 48
  else if 'a' ≤ c then c.toNat - 87
  else c.toNat - 55

/-- The parsing loop of `hexStringToBytes`: two characters per byte
(`parseInt(cleanHex.substr(i, 2), 16)`), one leftover character parsed
alone at an odd-length end. -/
def parseHexPairs : List Char → List Nat
  | [] => []
  | [c] => [hexCharVal c]
  | c1 :: c2 :: t => (16 * hexCharVal c1 + hexCharVal c2) :: parseHexPairs t

/-- Model of `hexStringToBytes` (decoder utils): strip every non-hex-digit
character, then parse two digits per byte. -/
def hexStringToBytes (hex : String) : List Nat :=
  parseHexPairs (hex.data.filter isHexDigitChar)

/-! ## Decoder engine (`parseSensorData` and its fallback parsers)

From the Sentinum decoder engine: converter execution with an internal
try/catch, family detection, standard parsers and the raw passthrough. -/

structure ParseMetadata where
  dataLength : Nat
  format : String
  parseSuccess : Bool
  errors : List String

structure ParseResult where
  sensorType : String
  measurements : List Measurement
  metadata : ParseMetadata

/-- Model of `detectSensorType`: 17+ bytes starting 0x11 are environmental, 12+
bytes are utility, anything else is generic. -/
def detectSensorType (rawData : List Nat) : String :=
  if 17 ≤ rawData.length ∧ rawData.getD 0 0 = 0x11 then "FEBR-Environmental"
  else if 12 ≤ rawData.length then "FEBR-Utility"
  else "Generic-mioty"

/-- Model of `parseEnvironmentalSensor`: battery voltage, internal temperature and
humidity from fixed offsets, empty for payloads under 17 bytes. -/
def parseEnvironmentalSensor (data : List Nat) : List Measurement :=
  if data.length < 17 then []
  else
    [⟨"battery_voltage",
      .num ((jsOr (jsShl (data.getD 3 0) 8) (data.getD 4 0) : Int) / 1000), "V",
      "Battery Voltage"⟩,
     ⟨"internal_temperature",
      .num ((jsOr (jsShl (data.getD 5 0) 8) (data.getD 6 0) : Int) / 10 - 100), "°C",
      "Internal Temperature"⟩,
     ⟨"humidity",
      .num ((jsOr (jsShl (data.getD 7 0) 8) (data.getD 8 0) : Int) / 100), "%RH",
      "Relative Humidity"⟩]

/-- Model of `parseUtilitySensor`: a single meter reading from bytes 2-3 when at
least 6 bytes are present. -/
def parseUtilitySensor (data : List Nat) : List Measurement :=
  if 6 ≤ data.length then
    [⟨"meter_reading", .num ((jsOr (jsShl (data.getD 2 0) 8) (data.getD 3 0) : Int)),
      "units", "Meter Reading"⟩]
  else []

/-- Model of `parseUnknownSensor`: one opaque measurement holding the space-joined
lower-case hex rendering of the payload. -/
def parseUnknownSensor (data : List Nat) : List Measurement :=
  [⟨"raw_data", .str (rawHexRender data), "hex", "Raw Hex Data"⟩]

/-- The observable behaviour of running a supplied decoding unit on the
payload at hand: the generated converter function either throws or returns
a value — an object record, or null/undefined (`none`).  (Primitive
non-object returns do not occur for the units in the repository.) -/
inductive ConvBehavior where
  | raises (msg : String)
  | yields (result : Option (List (String × JVal)))

/-- Model of `executeConverterCode`: runs the converter inside a try/catch; a
throwing unit is caught (logged) and becomes a null result. -/
def executeConverterCode (code : ConvBehavior) (_rawData : List Nat) :
    Option (List (String × JVal)) :=
  match code with
  | .raises _ => none
  | .yields r => r

/-- Model of `parseSensorData`: blueprint path when a converter is supplied and
yields a truthy record, otherwise fallback to family detection; the outer
try/catch never fires for array payloads because no fallback parser
throws, so the errors list stays empty on every path. -/
def parseSensorData (rawData : List Nat)
    (converterCode : Option ConvBehavior) : ParseResult :=
  let fallback : ParseResult :=
    let sensorType := detectSensorType rawData
    let measurements :=
      if sensorType = "FEBR-Environmental" then parseEnvironmentalSensor rawData
      else if sensorType = "FEBR-Utility" then parseUtilitySensor rawData
      else parseUnknownSensor rawData
    ⟨sensorType, measurements,
      ⟨rawData.length, "raw", decide (0 < measurements.length), []⟩⟩
  match converterCode with
  | some code =>
    match executeConverterCode code rawData with
    | some decoded =>
      ⟨"Unknown", convertDecodedToMeasurements decoded,
        ⟨rawData.length, "blueprint", true, []⟩⟩
    | none => fallback
  | none => fallback

/-- Claim C3 counterexample: a decoding unit that raises does not produce
a failure outcome — at payload [1] the engine returns empty errors and a
non-empty (fallback) measurement list. -/
theorem parseSensorData_raises_cex :
    (parseSensorData [1] (some (.raises "boom"))).metadata.errors = [] ∧
      (parseSensorData [1] (some (.raises "boom"))).measurements ≠ [] := by
  constructor
  · rfl
  · intro hcontra
    have h : (parseSensorData [1] (some (.raises "boom"))).measurements =
        [⟨"raw_data", .str (rawHexRender [1]), "hex", "Raw Hex Data"⟩] := rfl
    rw [h] at hcontra
    exact List.cons_ne_nil _ _ hcontra

/-- Claim C3 (amended): when the decoding unit raises, the exception is
captured inside `executeConverterCode` (it never crosses the engine
boundary) and the engine silently falls back to the standard family
detection: the result equals the no-converter result — errors stay empty
and the measurements come from the fallback parser, not from a failure
outcome. -/
theorem parseSensorData_raises_falls_back :
    ∀ (rawData : List Nat) (msg : String),
      parseSensorData rawData (some (.raises msg)) = parseSensorData rawData none := by
  intro rawData msg
  rfl

/-- Claim C6: a payload matching no known family layout (under 12 bytes)
and carrying no decoding unit is not a failure: the engine returns a
success-style result whose single measurement is the hex rendering of the
payload. -/
theorem parseSensorData_unknown_fallback (rawData : List Nat)
    (h : rawData.length < 12) :
    parseSensorData rawData none =
      ⟨"Generic-mioty",
        [⟨"raw_data", .str (rawHexRender rawData), "hex", "Raw Hex Data"⟩],
        ⟨rawData.length, "raw", true, []⟩⟩ := by
  have hdet : detectSensorType rawData = "Generic-mioty" := by
    unfold detectSensorType
    rw [if_neg (by rintro ⟨h17, -⟩; omega), if_neg (by omega)]
  simp only [parseSensorData, hdet]
  rw [if_neg (show ¬("Generic-mioty" = "FEBR-Environmental") from by decide),
    if_neg (show ¬("Generic-mioty" = "FEBR-Utility") from by decide)]
  rfl

/-- Witness for C6 at the two-byte payload 0x11 0xFE. -/
theorem parseSensorData_unknown_fallback_witness :
    parseSensorData [17, 254] none =
      ⟨"Generic-mioty", [⟨"raw_data", .str "11 fe", "hex", "Raw Hex Data"⟩],
        ⟨2, "raw", true, []⟩⟩ := by
  rw [parseSensorData_unknown_fallback [17, 254] (by norm_num)]
  rfl

/-! ## Hex round trip (claim C10) -/

/-- The two upper-case hex characters rendered for one byte. -/
def renderByteU (b : Nat) : List Char := (pad2 (jsToString16 b)).map Char.toUpper

set_option maxRecDepth 8192

lemma renderByteU_length : ∀ b : Nat, b < 256 → (renderByteU b).length = 2 := by
  decide

lemma renderByteU_allHex : ∀ b : Nat, b < 256 →
    (renderByteU b).all isHexDigitChar = true := by
  decide

lemma renderByteU_val : ∀ b : Nat, b < 256 →
    16 * hexCharVal ((renderByteU b).getD 0 '0') +
      hexCharVal ((renderByteU b).getD 1 '0') = b := by
  decide

lemma isHexDigitChar_space : isHexDigitChar ' ' = false := rfl

/-- Cleaning the space-joined rendering leaves exactly the concatenated
digit pairs. -/
lemma filter_joinSpace (l : List (List Char))
    (hall : ∀ x ∈ l, x.all isHexDigitChar = true) :
    (joinSpace l).filter isHexDigitChar = l.flatten := by
  induction l with
  | nil => rfl
  | cons x t ih =>
    cases t with
    | nil =>
      simp only [joinSpace, List.flatten]
      rw [List.filter_eq_self.2 (by simpa using hall x (by simp))]
      simp
    | cons y t2 =>
      simp only [joinSpace]
      rw [List.filter_append, List.filter_cons_of_neg (by simp [isHexDigitChar_space])]
      rw [List.filter_eq_self.2 (by simpa using hall x (by simp))]
      rw [ih (fun z hz => hall z (List.mem_cons_of_mem x hz))]
      simp

lemma parseHexPairs_flatten (bytes : List Nat) (h : ∀ b ∈ bytes, b < 256) :
    parseHexPairs (bytes.map renderByteU).flatten = bytes := by
  induction bytes with
  | nil => rfl
  | cons b t ih =>
    have hb : b < 256 := h b (by simp)
    obtain ⟨c1, c2, hcs⟩ := List.length_eq_two.1 (renderByteU_length b hb)
    have hval := renderByteU_val b hb
    rw [hcs] at hval
    simp at hval
    simp only [List.map_cons, List.flatten_cons, hcs, List.cons_append,
      List.nil_append]
    rw [parseHexPairs]
    rw [ih (fun z hz => h z (List.mem_cons_of_mem b hz))]
    simpa using hval

/-- Claim C10: rendering bytes to the space-separated upper-case hex form
and parsing that string back (strip non-hex characters, two digits per
byte) recovers the original byte list. -/
theorem hexStringToBytes_bytesToHexString (bytes : List Nat)
    (h : ∀ b ∈ bytes, b < 256) :
    hexStringToBytes (bytesToHexString bytes) = bytes := by
  unfold hexStringToBytes bytesToHexString
  show parseHexPairs ((joinSpace (bytes.map renderByteU)).filter isHexDigitChar) = bytes
  rw [filter_joinSpace _ (by
    intro x hx
    obtain ⟨b, hb, rfl⟩ := List.mem_map.1 hx
    exact renderByteU_allHex b (h b hb))]
  exact parseHexPairs_flatten bytes h

/-- Witness for C10 at the concrete byte list [0, 171, 255]. -/
theorem hexStringToBytes_bytesToHexString_witness :
    hexStringToBytes (bytesToHexString [0, 171, 255]) = [0, 171, 255] :=
  hexStringToBytes_bytesToHexString [0, 171, 255] (by decide)

/-! ## Hyperion byte cursor (fetch helpers)

From the Hyperion decoder: a DataView over the payload bytes and closure
helpers that advance a shared index by the field width on every call and
return 0 when the read would overrun the payload. -/

/-- A stored payload byte as the DataView sees it (setUint8 reduces the
written value modulo 256). -/
def byte8 (bytes : List Nat) (i : Nat) : Nat := bytes.getD i 0 % 256

/-- Model of `DataView.getUint32` at an offset, little or big endian. -/
def getUint32 (bytes : List Nat) (off : Nat) (le : Bool) : Nat :=
  if le then
    byte8 bytes off + 256 * byte8 bytes (off + 1) +
      65536 * byte8 bytes (off + 2) + 16777216 * byte8 bytes (off + 3)
  else
    byte8 bytes (off + 3) + 256 * byte8 bytes (off + 2) +
      65536 * byte8 bytes (off + 1) + 16777216 * byte8 bytes off

/-- Model of `DataView.getInt8` at an offset. -/
def getInt8 (bytes : List Nat) (off : Nat) : Int :=
  let u := byte8 bytes off
  if u < 128 then (u : Int) else (u : Int) - 256

/-- Model of `DataView.getInt16` at an offset, little or big endian. -/
def getInt16 (bytes : List Nat) (off : Nat) (le : Bool) : Int :=
  let u := if le then byte8 bytes off + 256 * byte8 bytes (off + 1)
    else byte8 bytes (off + 1) + 256 * byte8 bytes off
  if u < 32768 then (u : Int) else (u : Int) - 65536

/-- Model of `DataView.getInt32` at an offset, little or big endian. -/
def getInt32 (bytes : List Nat) (off : Nat) (le : Bool) : Int :=
  int32OfUint32 (getUint32 bytes off le)

/-- Model of `fetchUint32`: advance by 4, out-of-bounds reads yield 0. -/
def fetchUint32 (bytes : List Nat) (index : Nat) (le : Bool) : Nat × Nat :=
  (if bytes.length < index + 4 then 0 else getUint32 bytes index le, index + 4)

/-- Model of `fetchUint64`: advance by 8; in bounds, compose two 32-bit reads as
low + high * 2^32 (little endian) or high * 2^32 + low (big endian). -/
def fetchUint64 (bytes : List Nat) (index : Nat) (le : Bool) : Nat × Nat :=
  (if bytes.length < index + 8 then 0
   else
     let left := getUint32 bytes index le
     let right := getUint32 bytes (index + 4) le
     if le then left + right * 2 ^ 32 else left * 2 ^ 32 + right,
   index + 8)

/-- Model of `fetchSint8`: advance by 1 (the endianness argument is ignored by
`DataView.getInt8`). -/
def fetchSint8 (bytes : List Nat) (index : Nat) (_le : Bool) : Int × Nat :=
  (if bytes.length < index + 1 then 0 else getInt8 bytes index, index + 1)

/-- Model of `fetchSint16`: advance by 2. -/
def fetchSint16 (bytes : List Nat) (index : Nat) (le : Bool) : Int × Nat :=
  (if bytes.length < index + 2 then 0 else getInt16 bytes index le, index + 2)

/-- Model of `fetchSint32`: advance by 4. -/
def fetchSint32 (bytes : List Nat) (index : Nat) (le : Bool) : Int × Nat :=
  (if bytes.length < index + 4 then 0 else getInt32 bytes index le, index + 4)

/-- Claim C9: every Hyperion fetch helper advances the cursor by exactly
its field width whether or not the read is in bounds, and an out-of-bounds
read returns the value 0 instead of failing — so a truncated payload
yields zero-valued fields with all subsequent field offsets unchanged. -/
theorem hyperion_fetch_advance_and_oob (bytes : List Nat) (index : Nat)
    (le : Bool) :
    ((fetchUint32 bytes index le).2 = index + 4 ∧
      (fetchUint64 bytes index le).2 = index + 8 ∧
      (fetchSint8 bytes index le).2 = index + 1 ∧
      (fetchSint16 bytes index le).2 = index + 2 ∧
      (fetchSint32 bytes index le).2 = index + 4) ∧
    (bytes.length < index + 4 → (fetchUint32 bytes index le).1 = 0) ∧
    (bytes.length < index + 8 → (fetchUint64 bytes index le).1 = 0) ∧
    (bytes.length < index + 1 → (fetchSint8 bytes index le).1 = 0) ∧
    (bytes.length < index + 2 → (fetchSint16 bytes index le).1 = 0) ∧
    (bytes.length < index + 4 → (fetchSint32 bytes index le).1 = 0) := by
  refine ⟨⟨rfl, rfl, rfl, rfl, rfl⟩, ?_, ?_, ?_, ?_, ?_⟩ <;>
    intro h <;> simp only [fetchUint32, fetchUint64, fetchSint8, fetchSint16,
      fetchSint32, if_pos h]

/-- Witness for C9 on a two-byte payload. -/
theorem hyperion_fetch_advance_and_oob_witness :
    (fetchUint64 [1, 2] 0 true).1 = 0 ∧ (fetchUint64 [1, 2] 0 true).2 = 8 ∧
      (fetchSint16 [1, 2] 1 false).1 = 0 ∧ (fetchSint16 [1, 2] 1 false).2 = 3 := by
  obtain ⟨hadv, -, h64, -, h16, -⟩ := hyperion_fetch_advance_and_oob [1, 2] 0 true
  obtain ⟨hadv2, -, -, -, h162, -⟩ := hyperion_fetch_advance_and_oob [1, 2] 1 false
  exact ⟨h64 (by norm_num), hadv.2.1, h162 (by norm_num), hadv2.2.2.2.1⟩

/-! ## 64-bit composition (claim C5)

Little- and big-endian encodings of a 64-bit value, following the wording of the spec: `low` is the less-significant and `high` the more-significant
32-bit half. -/

structure JunoResult where
  data : List (String × JVal)

def junoDecodeUplink (bytes : List Nat) (fPort : ℚ) : JunoResult :=
  if fPort = 1 then
    let b0 := jvIdx bytes (.num 0)
    let b1 := jvIdx bytes (.num 1)
    let minor := jvShr b1 (.num 4)
    let product := jvAnd b1 (.num 15)
    let head : List (String × JVal) :=
      [("base_id", jvShr b0 (.num 4)),
       ("major_version", jvAnd b0 (.num 15)),
       ("minor_version", minor),
       ("product_version", product),
       ("up_cnt", jvIdx bytes (.num 2)),
       ("battery_voltage", .obj
         [("value", jvDivC (jvOr (jvShl (jvIdx bytes (.num 3)) (.num 8))
            (jvIdx bytes (.num 4))) 1000),
          ("unit", .str "V")]),
       ("internal_temperature", .obj
         [("value", jvSub (jvIdx bytes (.num 5)) (.num 128)),
          ("unit", .str "°C")]),
       ("networkBaseType", .str "mioty"),
       ("networkSubType", .str "mioty")]
    let tail : List (String × JVal) :=
      if jvGt minor 1 then
        let hasTH := jvTruthy (jvAnd product (.num 1))
        let part1 : List (String × JVal) :=
          if hasTH then
            let user_data := jvIdx bytes (.num 6)
            [("alarms", .obj
               [("temperatureMaxAlarm", .bool (jvTruthy (jvAnd user_data (.num 1)))),
                ("temperatureMinAlarm", .bool (jvTruthy (jvAnd user_data (.num 2)))),
                ("temperatureDeltaAlarm", .bool (jvTruthy (jvAnd user_data (.num 4)))),
                ("humidityMaxAlarm", .bool (jvTruthy (jvAnd user_data (.num 8)))),
                ("humidityMinAlarm", .bool (jvTruthy (jvAnd user_data (.num 16)))),
                ("humidityDeltaAlarm", .bool (jvTruthy (jvAnd user_data (.num 32))))]),
             ("temperature", .obj
               [("value", jvSub (jvDivC (jvOr (jvShl (jvIdx bytes (.num 7)) (.num 8))
                  (jvIdx bytes (.num 8))) 10) (.num 100)),
                ("unit", .str "°C")]),
             ("humidity", .obj [("value", jvIdx bytes (.num 9)), ("unit", .str "%")])]
          else []
        let idx2 : ℚ := if hasTH then 10 else 6
        let part2 : List (String × JVal) :=
          if jvTruthy (jvAnd product (.num 2)) then
            [("orientation", jvIdx bytes (.num idx2)),
             ("open_alarm", jvIdx bytes (.num (idx2 + 1))),
             ("opended_since_sent", jvIdx bytes (.num (idx2 + 2))),
             ("opended_since_boot", jvOr (jvShl (jvIdx bytes (.num (idx2 + 3))) (.num 8))
               (jvIdx bytes (.num (idx2 + 4))))]
          else []
        part1 ++ part2
      else []
    ⟨head ++ tail⟩
  else ⟨[]⟩

/-- Claim C1 counterexample: the Juno decoder on the empty port-1 payload
does not fail — it returns a populated record whose internal_temperature
value is NaN (from `undefined - 128`) and whose up_cnt is undefined. -/
theorem juno_empty_payload_cex :
    (junoDecodeUplink [] 1).data.lookup "internal_temperature" =
        some (.obj [("value", JVal.nan), ("unit", .str "°C")]) ∧
      (junoDecodeUplink [] 1).data.lookup "up_cnt" = some JVal.undef := by
  exact ⟨rfl, rfl⟩

/-- Claim C1 (amended): the Juno and Apollon decoders perform no bounds
checks.  For every port-1 payload too short for the mandatory fields
(fewer than 6 bytes), the Juno decoder still returns a record — not a
failure — in which the out-of-bounds arithmetic read surfaces as a NaN
internal_temperature, while bitwise-derived fields coerce the missing
bytes to 0.  (Only the Febris TH family decoder checks its 17-byte
minimum and reports errors.) -/
theorem juno_short_payload_nan (bytes : List Nat) (h : bytes.length ≤ 5) :
    (junoDecodeUplink bytes 1).data.lookup "internal_temperature" =
      some (.obj [("value", JVal.nan), ("unit", .str "°C")]) := by
  have h5 : jvIdx bytes (.num 5) = JVal.undef := by
    simp only [jvIdx]
    rw [if_neg (by
      rintro ⟨-, -, hlt⟩
      rw [show ((5 : ℚ)).num = 5 from rfl] at hlt
      omega)]
  unfold junoDecodeUplink
  rw [if_pos rfl]
  simp only [List.cons_append, List.nil_append, List.lookup, h5]
  rfl

/-- Witness for the amended C1 theorem on a concrete 3-byte payload. -/
theorem juno_short_payload_nan_witness :
    (junoDecodeUplink [17, 50, 5] 1).data.lookup "internal_temperature" =
      some (.obj [("value", JVal.nan), ("unit", .str "°C")]) :=
  juno_short_payload_nan [17, 50, 5] (by norm_num)

/-! ## Febris universal decoder (src/decoders/febris_universal.js)

The cursor `it` is a JavaScript number: an out-of-bounds count byte in the
FIFO skip would turn it into NaN, so the cursor is modelled as a value,
not a natural. -/

/-- The FIFO skip step (`it += 2 + bytes[it] * 7`): one count byte, one
period byte, then count seven-byte entries. -/
def fifoSkip (bytes : List Nat) (it : JVal) : JVal :=
  jvAdd it (jvAdd (.num 2) (jvMulC (jvIdx bytes it) 7))

structure FebrisResult where
  data : List (String × JVal)
  warnings : List String
  errors : List String

def febrisUniversalDecode (bytes : List Nat) (fPort : ℚ) : FebrisResult :=
  if fPort = 1 then
    let b0 := jvIdx bytes (.num 0)
    let b1 := jvIdx bytes (.num 1)
    let minor := jvShr b1 (.num 4)
    let product := jvAnd b1 (.num 15)
    let head : List (String × JVal) :=
      [("base_id", jvShr b0 (.num 4)),
       ("major_version", jvAnd b0 (.num 15)),
       ("minor_version", minor),
       ("product_version", product),
       ("up_cnt", jvIdx bytes (.num 2)),
       ("battery_voltage", .obj
         [("value", jvDivC (jvOr (jvShl (jvIdx bytes (.num 3)) (.num 8))
            (jvIdx bytes (.num 4))) 1000),
          ("unit", .str "V")]),
       ("internal_temperature", .obj
         [("value", jvSub (jvDivC (jvOr (jvShl (jvIdx bytes (.num 5)) (.num 8))
            (jvIdx bytes (.num 6))) 10) (.num 100)),
          ("unit", .str "°C")]),
       ("networkBaseType", .str "mioty"),
       ("networkSubType", .str "mioty")]
    let tail : List (String × JVal) :=
      if jvGe minor 3 then
        let it : JVal := .num 7
        let hum := ("humidity", JVal.obj
          [("value", jvIdx bytes it), ("unit", .str "%")])
        let it := jvAdd it (.num 1)
        let pc : List (String × JVal) :=
          if jvTruthy (jvAnd product (.num 1)) then
            [("pressure", .obj
               [("value", jvOr (jvShl (jvIdx bytes it) (.num 8))
                  (jvIdx bytes (jvAdd it (.num 1)))),
                ("unit", .str "hPa")]),
             ("co2_ppm", .obj
               [("value", jvOr (jvShl (jvIdx bytes (jvAdd it (.num 2))) (.num 8))
                  (jvIdx bytes (jvAdd it (.num 3)))),
                ("unit", .str "ppm")])]
          else []
        let it := jvAdd it (.num 4)
        let alarmE := ("alarm", jvIdx bytes it)
        let it := jvAdd it (.num 1)
        let it := fifoSkip bytes it
        let dew := ("dew_point", JVal.obj
          [("value", jvSub (jvDivC (jvOr (jvShl (jvIdx bytes it) (.num 8))
             (jvIdx bytes (jvAdd it (.num 1)))) 10) (.num 100)),
           ("unit", .str "°C")])
        let it := jvAdd it (.num 2)
        let wall : List (String × JVal) :=
          if jvTruthy (jvAnd product (.num 4)) then
            [("wall_temperature", .obj
               [("value", jvSub (jvDivC (jvOr (jvShl (jvIdx bytes it) (.num 8))
                  (jvIdx bytes (jvAdd it (.num 1)))) 10) (.num 100)),
                ("unit", .str "°C")]),
             ("therm_temperature", .obj
               [("value", jvSub (jvDivC (jvOr (jvShl (jvIdx bytes (jvAdd it (.num 2))) (.num 8))
                  (jvIdx bytes (jvAdd it (.num 3)))) 10) (.num 100)),
                ("unit", .str "°C")]),
             ("wall_humidity", .obj
               [("value", jvIdx bytes (jvAdd it (.num 4))), ("unit", .str "%")])]
          else []
        hum :: (pc ++ alarmE :: dew :: wall)
      else
        let it : JVal := .num 7
        let hum := ("humidity", JVal.obj
          [("value", jvIdx bytes it), ("unit", .str "%")])
        let it := jvAdd it (.num 1)
        let pc : List (String × JVal) :=
          if jvTruthy (jvAnd product (.num 1)) then
            [("pressure", .obj
               [("value", jvOr (jvShl (jvIdx bytes it) (.num 8))
                  (jvIdx bytes (jvAdd it (.num 1)))),
                ("unit", .str "hPa")]),
             ("co2_ppm", .obj
               [("value", jvOr (jvShl (jvIdx bytes (jvAdd it (.num 2))) (.num 8))
                  (jvIdx bytes (jvAdd it (.num 3)))),
                ("unit", .str "ppm")])]
          else []
        let it := jvAdd it (.num 4)
        let alarmE := ("alarm", jvIdx bytes it)
        let it := jvAdd it (.num 1)
        let it := fifoSkip bytes it
        let hasDew := jvGe minor 2 && jvTruthy (jvIdx bytes it)
        let dewOld : List (String × JVal) :=
          if hasDew then
            [("dew_point", .obj
               [("value", jvSub (jvIdx bytes it) (.num 100)), ("unit", .str "°C")])]
          else []
        let it := if hasDew then jvAdd it (.num 1) else it
        let wallOld : List (String × JVal) :=
          if jvTruthy (jvAnd product (.num 4)) then
            [("wall_temperature", .obj
               [("value", jvSub (jvIdx bytes it) (.num 100)), ("unit", .str "°C")]),
             ("therm_temperature", .obj
               [("value", jvSub (jvIdx bytes (jvAdd it (.num 1))) (.num 100)),
                ("unit", .str "°C")]),
             ("wall_humidity", .obj
               [("value", jvIdx bytes (jvAdd it (.num 2))), ("unit", .str "%")])]
          else []
        hum :: (pc ++ alarmE :: (dewOld ++ wallOld))
    ⟨head ++ tail, [], []⟩
  else ⟨[], [], []⟩

/-- Claim C2 counterexample: with count byte k = 0 read at offset 0 of the
payload [0], the cursor after the FIFO skip is 2, not
offset-before + 1 + k*7 = 1. -/
theorem fifoSkip_cex :
    fifoSkip [0] (.num 0) = .num 2 ∧ (2 : ℚ) ≠ 0 + 1 + 0 * 7 := by
  constructor
  · with_unfolding_all rfl
  · norm_num

/-- The payload used for the amended skip-arithmetic claim: header with
minor version 3 and product version 2, alarm byte, count byte k, period
byte, k seven-byte FIFO entries, then the dew-point field 0x04 0xD2. -/
def febrisSkipPayload (k : Nat) : List Nat :=
  [0x11, 0x32, 0x05, 0x0C, 0x1C, 0x04, 0xD2, 0x32, 0, 0, 0, 0, 0x01] ++
    ([k, 0] ++ (List.replicate (7 * k) 0xAA ++ [0x04, 0xD2]))

/-- Array indexing at a natural index inside the bounds reads the byte. -/
lemma jvIdx_natCast (bytes : List Nat) (m : Nat) (h : m < bytes.length) :
    jvIdx bytes (.num (m : ℚ)) = .num (bytes.getD m 0) := by
  have hden : ((m : ℚ)).den = 1 := Rat.den_natCast m
  have hnum : ((m : ℚ)).num = (m : Int) := Rat.num_natCast m
  simp only [jvIdx]
  rw [if_pos ⟨hden, by rw [hnum]; omega, by rw [hnum]; exact_mod_cast h⟩]
  rw [hnum]
  simp

/-- Claim C2 (amended): the skip consumes the count byte, a period byte
and k seven-byte entries — for every count byte k, the cursor offset after
the skip equals offset-before + 2 + k*7, not offset-before + 1 + k*7
(in particular for k in 0, 1, 16, 255).  Verified both on the skip step
itself (count byte at offset 13) and end to end: the decoder reads the
dew-point field at the post-skip offset 15 + 7k, decoding 0x04D2 to
23.4 °C for every k. -/
theorem fifoSkip_arithmetic :
    ∀ k : Nat,
      fifoSkip (febrisSkipPayload k) (.num 13) = .num (13 + 2 + (k : ℚ) * 7) ∧
      (febrisUniversalDecode (febrisSkipPayload k) 1).data.lookup "dew_point" =
        some (.obj [("value", .num (117/5)), ("unit", .str "°C")]) := by
  intro k
  have hlen : (febrisSkipPayload k).length = 17 + 7 * k := by
    simp [febrisSkipPayload]
    omega
  have hd1 : (febrisSkipPayload k).getD 1 0 = 50 := rfl
  have hd13 : (febrisSkipPayload k).getD 13 0 = k := rfl
  have hd15 : (febrisSkipPayload k).getD (15 + 7 * k) 0 = 4 := by
    unfold febrisSkipPayload
    rw [List.getD_append_right _ _ 0 _
      (by simp only [List.length_cons, List.length_nil]; omega)]
    rw [show 15 + 7 * k -
      ([0x11, 0x32, 0x05, 0x0C, 0x1C, 0x04, 0xD2, 0x32, 0, 0, 0, 0, 0x01] : List Nat).length
      = 2 + 7 * k from by simp only [List.length_cons, List.length_nil]; omega]
    rw [List.getD_append_right _ _ 0 _
      (by simp only [List.length_cons, List.length_nil]; omega)]
    rw [show 2 + 7 * k - ([k, 0] : List Nat).length = 7 * k from by
      simp only [List.length_cons, List.length_nil]; omega]
    rw [List.getD_append_right _ _ 0 _ (by simp only [List.length_replicate]; omega)]
    rw [show 7 * k - (List.replicate (7 * k) 0xAA).length = 0 from by
      simp only [List.length_replicate]; omega]
    rfl
  have hd16 : (febrisSkipPayload k).getD (16 + 7 * k) 0 = 210 := by
    unfold febrisSkipPayload
    rw [List.getD_append_right _ _ 0 _
      (by simp only [List.length_cons, List.length_nil]; omega)]
    rw [show 16 + 7 * k -
      ([0x11, 0x32, 0x05, 0x0C, 0x1C, 0x04, 0xD2, 0x32, 0, 0, 0, 0, 0x01] : List Nat).length
      = 3 + 7 * k from by simp only [List.length_cons, List.length_nil]; omega]
    rw [List.getD_append_right _ _ 0 _
      (by simp only [List.length_cons, List.length_nil]; omega)]
    rw [show 3 + 7 * k - ([k, 0] : List Nat).length = 1 + 7 * k from by
      simp only [List.length_cons, List.length_nil]; omega]
    rw [List.getD_append_right _ _ 0 _ (by simp only [List.length_replicate]; omega)]
    rw [show 1 + 7 * k - (List.replicate (7 * k) 0xAA).length = 1 from by
      simp only [List.length_replicate]; omega]
    rfl
  have hidx1 : jvIdx (febrisSkipPayload k) (.num 1) = .num 50 := by
    have h := jvIdx_natCast (febrisSkipPayload k) 1 (by rw [hlen]; omega)
    rw [hd1] at h
    norm_num at h
    exact h
  have hidx13 : jvIdx (febrisSkipPayload k) (.num 13) = .num k := by
    have h := jvIdx_natCast (febrisSkipPayload k) 13 (by rw [hlen]; omega)
    rw [hd13] at h
    norm_num at h
    exact h
  have hidx15 : jvIdx (febrisSkipPayload k) (.num (15 + 7 * (k : ℚ))) = .num 4 := by
    have hcast : (15 + 7 * (k : ℚ)) = ((15 + 7 * k : Nat) : ℚ) := by
      push_cast
      ring
    rw [hcast, jvIdx_natCast _ _ (by rw [hlen]; omega), hd15]
    norm_num
  have hidx16 : jvIdx (febrisSkipPayload k) (.num (16 + 7 * (k : ℚ))) = .num 210 := by
    have hcast : (16 + 7 * (k : ℚ)) = ((16 + 7 * k : Nat) : ℚ) := by
      push_cast
      ring
    rw [hcast, jvIdx_natCast _ _ (by rw [hlen]; omega), hd16]
    norm_num
  have hskip : fifoSkip (febrisSkipPayload k) (.num 13) = .num (15 + 7 * (k : ℚ)) := by
    unfold fifoSkip
    rw [hidx13]
    simp [jvAdd, jvMulC, jvNumOf]
    ring
  have hminor : jvShr (JVal.num 50) (.num 4) = .num 3 := by with_unfolding_all rfl
  have hprod : jvAnd (JVal.num 50) (.num 15) = .num 2 := by with_unfolding_all rfl
  have hge3 : jvGe (JVal.num 3) 3 = true := by with_unfolding_all rfl
  have hpc : jvTruthy (jvAnd (JVal.num 2) (.num 1)) = false := by with_unfolding_all rfl
  have ha78 : jvAdd (JVal.num 7) (.num 1) = .num 8 := by with_unfolding_all rfl
  have ha812 : jvAdd (JVal.num 8) (.num 4) = .num 12 := by with_unfolding_all rfl
  have ha1213 : jvAdd (JVal.num 12) (.num 1) = .num 13 := by with_unfolding_all rfl
  have hadd1 : jvAdd (JVal.num (15 + 7 * (k : ℚ))) (.num 1) = .num (16 + 7 * (k : ℚ)) := by
    simp [jvAdd, jvNumOf]
    ring
  have hdew : jvSub (jvDivC (jvOr (jvShl (JVal.num 4) (.num 8)) (.num 210)) 10)
      (.num 100) = .num (117/5) := by with_unfolding_all rfl
  constructor
  · rw [hskip]
    congr 1
    ring
  · simp only [febrisUniversalDecode, if_true]
    rw [hidx1, hminor, hprod, hge3]
    rw [if_pos rfl]
    rw [hpc]
    rw [if_neg (by simp)]
    rw [ha78, ha812, ha1213, hskip, hidx15, hadd1, hidx16, hdew]
    simp [List.lookup]

/-- Claim C8: a port-1 payload with header bytes 0x11 0x32 (base-id 1,
major 1, minor 3, product 2) and battery-voltage bytes 0x0C 0x1C (raw
3100) decodes battery_voltage = 3.1 V. -/
theorem febris_scenarioA :
    (febrisUniversalDecode
        [0x11, 0x32, 0x05, 0x0C, 0x1C, 0x04, 0xD2, 0x32, 0, 0, 0, 0, 0x01,
          0, 0, 0x04, 0xD2] 1).data.lookup "battery_voltage" =
        some (.obj [("value", .num (31/10)), ("unit", .str "V")]) ∧
      (febrisUniversalDecode
        [0x11, 0x32, 0x05, 0x0C, 0x1C, 0x04, 0xD2, 0x32, 0, 0, 0, 0, 0x01,
          0, 0, 0x04, 0xD2] 1).data.lookup "base_id" = some (.num 1) ∧
      (febrisUniversalDecode
        [0x11, 0x32, 0x05, 0x0C, 0x1C, 0x04, 0xD2, 0x32, 0, 0, 0, 0, 0x01,
          0, 0, 0x04, 0xD2] 1).data.lookup "major_version" = some (.num 1) ∧
      (febrisUniversalDecode
        [0x11, 0x32, 0x05, 0x0C, 0x1C, 0x04, 0xD2, 0x32, 0, 0, 0, 0, 0x01,
          0, 0, 0x04, 0xD2] 1).data.lookup "minor_version" = some (.num 3) ∧
      (febrisUniversalDecode
        [0x11, 0x32, 0x05, 0x0C, 0x1C, 0x04, 0xD2, 0x32, 0, 0, 0, 0, 0x01,
          0, 0, 0x04, 0xD2] 1).data.lookup "product_version" = some (.num 2) := by
  refine ⟨?_, ?_, ?_, ?_, ?_⟩ <;> with_unfolding_all rfl
